import Mathlib

/-!
Verification of the sync-loop script `main.py` (fetch → normalize timestamps →
upsert) against its natural-language specification.

The script is embedded shallowly:

* JSON values are the inductive `JVal`; Python `dict` mutation (`d[k] = v`:
  update in place if the key exists, append otherwise) is `setKey`.
* `datetime.strptime(s, "%d-%m-%Y %H:%M")` is `parseDT`, faithful to CPython's
  `_strptime` regexes: day/month/hour/minute match 1–2 digit runs with the
  per-field numeric bounds of the regex alternations, the year matches exactly
  4 digits, and `datetime(...)` additionally validates day-of-month and
  `MINYEAR ≤ year ≤ MAXYEAR`.  `strftime("%d-%m-%Y %H:%M")` is `renderDT`
  (zero-padded fields), `isoformat()` is `isoRender`.
* The timezone objects `pytz.timezone('America/Argentina/Buenos_Aires')` and
  `pytz.timezone('America/Argentina/Cordoba')` are modelled by their fixed
  UTC offsets: per the IANA tz database both zones have observed a constant
  UTC-03:00 (no daylight-saving transitions) throughout the period this job
  runs over, so `localize`/`astimezone` amount to shifting the wall clock by
  the offset difference (`convertDT`, via exact minute arithmetic `addMin`).
* One cycle of `perform_api_and_supabase_action` is a pure function of the
  environment's behaviour (`Env`: the GET outcome and the store POST outcome)
  returning a `CycleResult`; each `except` clause of the script corresponds to
  one `Raised` constructor.  The infinite `main_loop` is run on a finite list
  of per-cycle environment behaviours.
-/

/-- Digit test matching CPython char-class `\d` over ASCII digits. -/
def isDig (c : Char) : Bool := 48 ≤ c.toNat && c.toNat ≤ 57

/-- Numeric value of an ASCII digit character. -/
def digVal (c : Char) : Nat := c.toNat - 48

/-- Digit character for a value `0`–`9` (callers only pass values below 10). -/
def digitChar : Nat → Char
  | 0 => '0'
  | 1 => '1'
  | 2 => '2'
  | 3 => '3'
  | 4 => '4'
  | 5 => '5'
  | 6 => '6'
  | 7 => '7'
  | 8 => '8'
  | _ => '9'

/-- Two-digit zero-padded rendering, as `strftime` `%d`/`%m`/`%H`/`%M`. -/
def pad2 (n : Nat) : List Char := [digitChar (n / 10), digitChar (n % 10)]

/-- Four-digit zero-padded rendering, as `strftime` `%Y` for years up to 9999. -/
def pad4 (n : Nat) : List Char :=
  [digitChar (n / 1000), digitChar (n / 100 % 10), digitChar (n / 10 % 10), digitChar (n % 10)]

/-- Maximal leading digit run of a character list, plus the remainder.  A
`strptime` numeric field must consume the whole run, because the character
after each field in the format `%d-%m-%Y %H:%M` is a non-digit literal (or the
end of the string, where leftover text raises `ValueError`). -/
def takeDigits : List Char → List Char × List Char
  | [] => ([], [])
  | c :: rest =>
    if isDig c then (c :: (takeDigits rest).1, (takeDigits rest).2)
    else ([], c :: rest)

/-- Numeric value of a digit run. -/
def digitsVal (cs : List Char) : Nat := cs.foldl (fun a c => a * 10 + digVal c) 0

/-- Naive civil datetime, the payload of a Python `datetime` with zero
seconds and microseconds (which is what `strptime` on `%d-%m-%Y %H:%M`
produces). -/
structure DT where
  year : Nat
  month : Nat
  day : Nat
  hour : Nat
  minute : Nat
deriving DecidableEq, Repr

/-- Calendar date component. -/
structure Date where
  year : Nat
  month : Nat
  day : Nat
deriving DecidableEq, Repr

/-- Gregorian leap-year rule, as Python's `calendar`/`datetime`. -/
def isLeap (y : Nat) : Bool := ((y % 4 == 0) && !(y % 100 == 0)) || (y % 400 == 0)

/-- Days in a month of the proleptic Gregorian calendar. -/
def daysInMonth (y m : Nat) : Nat :=
  if m = 2 then (if isLeap y then 29 else 28)
  else if m = 4 ∨ m = 6 ∨ m = 9 ∨ m = 11 then 30
  else 31

/-- Next calendar day. -/
def nextDay (d : Date) : Date :=
  if d.day < daysInMonth d.year d.month then ⟨d.year, d.month, d.day + 1⟩
  else if d.month < 12 then ⟨d.year, d.month + 1, 1⟩
  else ⟨d.year + 1, 1, 1⟩

/-- Previous calendar day. -/
def prevDay (d : Date) : Date :=
  if 1 < d.day then ⟨d.year, d.month, d.day - 1⟩
  else if 1 < d.month then ⟨d.year, d.month - 1, daysInMonth d.year (d.month - 1)⟩
  else ⟨d.year - 1, 12, 31⟩

/-- Shift a date by a signed number of days. -/
def addDays (d : Date) (k : Int) : Date :=
  match k with
  | Int.ofNat n => nextDay^[n] d
  | Int.negSucc n => prevDay^[n + 1] d

/-- Shift a civil datetime by a signed number of minutes — the arithmetic
`datetime` performs when `astimezone` subtracts the source offset and adds the
target offset (exact `timedelta` arithmetic on the proleptic calendar). -/
def addMin (dt : DT) (k : Int) : DT :=
  let tot : Int := (dt.hour * 60 + dt.minute : Nat) + k
  let q : Int := tot / 1440
  let r : Nat := (tot % 1440).toNat
  let date := addDays ⟨dt.year, dt.month, dt.day⟩ q
  ⟨date.year, date.month, date.day, r / 60, r % 60⟩

/-- Consume one expected literal character, as the literal separators of a
`strptime` format string. -/
def expectChar (c : Char) : List Char → Option (List Char)
  | [] => none
  | d :: rest => if d = c then some rest else none

/-- Syntactic field extraction of `strptime(s, "%d-%m-%Y %H:%M")`: day, month,
year, hour, minute.  Field bounds follow the CPython `_strptime` regexes
(day `1..31`, month `1..12`, hour `0..23`, minute `0..59` are checked after
extraction together with the `datetime` constructor checks). -/
def parseFieldsRaw (cs : List Char) : Option (Nat × Nat × Nat × Nat × Nat) :=
  let p1 := takeDigits cs
  if p1.1.length = 0 ∨ 2 < p1.1.length then none else
  match expectChar '-' p1.2 with
  | none => none
  | some cs2 =>
    let p2 := takeDigits cs2
    if p2.1.length = 0 ∨ 2 < p2.1.length then none else
    match expectChar '-' p2.2 with
    | none => none
    | some cs3 =>
      let p3 := takeDigits cs3
      if p3.1.length ≠ 4 then none else
      match expectChar ' ' p3.2 with
      | none => none
      | some cs4 =>
        let p4 := takeDigits cs4
        if p4.1.length = 0 ∨ 2 < p4.1.length then none else
        match expectChar ':' p4.2 with
        | none => none
        | some cs5 =>
          let p5 := takeDigits cs5
          if p5.1.length = 0 ∨ 2 < p5.1.length ∨ p5.2 ≠ [] then none
          else some (digitsVal p1.1, digitsVal p2.1, digitsVal p3.1, digitsVal p4.1, digitsVal p5.1)

/-- Full `strptime` on the fixed format, including the range checks performed
by the field regexes and the `datetime` constructor (valid day-of-month,
`1 ≤ year ≤ 9999`).  Returns `none` exactly when CPython raises `ValueError`. -/
def parseDTList (cs : List Char) : Option DT :=
  match parseFieldsRaw cs with
  | none => none
  | some (d, mo, y, h, mi) =>
    if 1 ≤ d ∧ 1 ≤ mo ∧ mo ≤ 12 ∧ d ≤ daysInMonth y mo ∧ h ≤ 23 ∧ mi ≤ 59
        ∧ 1 ≤ y ∧ y ≤ 9999
    then some ⟨y, mo, d, h, mi⟩ else none

/-- String-level `strptime` wrapper. -/
def parseDT (s : String) : Option DT := parseDTList s.data

/-- The invariants a successfully parsed datetime satisfies. -/
def validDT (dt : DT) : Prop :=
  1 ≤ dt.day ∧ 1 ≤ dt.month ∧ dt.month ≤ 12 ∧ dt.day ≤ daysInMonth dt.year dt.month
    ∧ dt.hour ≤ 23 ∧ dt.minute ≤ 59 ∧ 1 ≤ dt.year ∧ dt.year ≤ 9999

/-- Character-level `strftime("%d-%m-%Y %H:%M")`. -/
def renderDTList (dt : DT) : List Char :=
  pad2 dt.day ++ '-' :: (pad2 dt.month ++ '-' :: (pad4 dt.year ++
    ' ' :: (pad2 dt.hour ++ ':' :: pad2 dt.minute)))

/-- String-level `strftime("%d-%m-%Y %H:%M")`. -/
def renderDT (dt : DT) : String := ⟨renderDTList dt⟩

/-- Rendering of a UTC offset in minutes as `isoformat` renders `tzinfo`
(sign, then absolute hours and minutes). -/
def isoOffsetChars (offMin : Int) : List Char :=
  (if offMin < 0 then '-' else '+') ::
    (pad2 (offMin.natAbs / 60) ++ ':' :: pad2 (offMin.natAbs % 60))

/-- Python `datetime.isoformat()` of an aware datetime with zero seconds and
microseconds and the given fixed offset. -/
def isoRender (dt : DT) (offMin : Int) : String :=
  ⟨pad4 dt.year ++ '-' :: (pad2 dt.month ++ '-' :: (pad2 dt.day ++
    'T' :: (pad2 dt.hour ++ ':' :: (pad2 dt.minute ++ ':' :: (pad2 0 ++
    isoOffsetChars offMin)))))⟩

/-- UTC offset, in minutes, of `pytz.timezone('America/Argentina/Buenos_Aires')`
(`promiedos_timezone` in the script): a constant UTC-03:00, with no
daylight-saving transitions, for every instant this job processes (the zone has
been fixed at -03:00 in the IANA database since 2009). -/
def promiedos_timezone_offset_min : Int := -180

/-- UTC offset, in minutes, of `pytz.timezone('America/Argentina/Cordoba')`
(`target_timezone` in the script): likewise a constant UTC-03:00. -/
def target_timezone_offset_min : Int := -180

/-- The conversion `promiedos_timezone.localize(naive).astimezone(target_timezone)`
acting on the wall clock: subtract the source offset (to UTC) and add the
target offset, i.e. shift by their difference. -/
def convertDT (dt : DT) : DT :=
  addMin dt (target_timezone_offset_min - promiedos_timezone_offset_min)

/-- JSON values, the result of `response.json()`. -/
inductive JVal where
  | null : JVal
  | bool : Bool → JVal
  | num : Int → JVal
  | str : String → JVal
  | arr : List JVal → JVal
  | obj : List (String × JVal) → JVal

/-- First-match key lookup in an object, as Python `d[k]` (JSON objects
decoded by `json.loads` have unique keys). -/
def lookupF : List (String × JVal) → String → Option JVal
  | [], _ => none
  | (k', v) :: rest, k => if k' = k then some v else lookupF rest k

/-- Python dict assignment `d[k] = v`: replace in place when the key exists,
append at the end (insertion order) otherwise. -/
def setKey : List (String × JVal) → String → JVal → List (String × JVal)
  | [], k, v => [(k, v)]
  | (k', v') :: rest, k, v =>
    if k' = k then (k, v) :: rest else (k', v') :: setKey rest k v

/-- Whether the first list is an initial segment of the second. -/
def startsList : List Char → List Char → Bool
  | [], _ => true
  | _ :: _, [] => false
  | p :: ps, c :: cs => p == c && startsList ps cs

/-- Python substring containment `pat in s` for strings. -/
def hasSubList (pat : List Char) : List Char → Bool
  | [] => pat.isEmpty
  | c :: cs => startsList pat (c :: cs) || hasSubList pat cs

/-- Python `==` between the string `k` and a JSON value (used by list
membership): true only for an equal string. -/
def strMember (k : String) : JVal → Bool
  | .str t => t == k
  | _ => false

/-- Characters Python `str.strip()` removes (ASCII whitespace; the bodies this
job sees are ASCII JSON). -/
def pySpace (c : Char) : Bool :=
  c == ' ' || c == '\t' || c == '\n' || c == '\r' || c == '\x0b' || c == '\x0c'

/-- Python `str.strip()`. -/
def pyStrip (s : String) : String :=
  ⟨((s.data.dropWhile pySpace).reverse.dropWhile pySpace).reverse⟩

/-- One game of the normalization loop (`main.py` lines 72–94).  `none` models
a `TypeError` escaping the per-game `try` (the membership test and the
indexing in the guard are outside it) and aborting the cycle; otherwise the
possibly rewritten game is returned together with the warning messages (the
unparseable time strings) printed for it. -/
def normalizeGame (game : JVal) : Option (JVal × List String) :=
  match game with
  | .obj fs =>
    match lookupF fs "start_time" with
    | some (.str time_str) =>
      match parseDT time_str with
      | some dtv =>
        some (.obj (setKey (setKey (setKey fs
            "start_time_original" (.str time_str))
            "start_time" (.str (renderDT (convertDT dtv))))
            "start_time_iso_target_tz"
              (.str (isoRender (convertDT dtv) target_timezone_offset_min))), [])
      | none => some (.obj fs, [time_str])
    | some _ => some (.obj fs, [])
    | none => some (.obj fs, [])
  | .str s => if hasSubList "start_time".data s.data then none else some (.str s, [])
  | .arr xs => if xs.any (strMember "start_time") then none else some (.arr xs, [])
  | _ => none

/-- The inner `for game in league['games']` loop. -/
def normalizeGames : List JVal → Option (List JVal × List String)
  | [] => some ([], [])
  | g :: gs =>
    match normalizeGame g with
    | none => none
    | some (g', w) =>
      match normalizeGames gs with
      | none => none
      | some (gs', ws) => some (g' :: gs', w ++ ws)

/-- One league of the normalization loop (`main.py` lines 69–94): skip unless
a `games` key holds a list; `none` models a `TypeError` aborting the cycle. -/
def normalizeLeague (league : JVal) : Option (JVal × List String) :=
  match league with
  | .obj fs =>
    match lookupF fs "games" with
    | some (.arr gs) =>
      match normalizeGames gs with
      | none => none
      | some (gs', ws) => some (.obj (setKey fs "games" (.arr gs')), ws)
    | some _ => some (league, [])
    | none => some (league, [])
  | .str s => if hasSubList "games".data s.data then none else some (.str s, [])
  | .arr xs => if xs.any (strMember "games") then none else some (.arr xs, [])
  | _ => none

/-- The outer `for league in data_to_store` loop. -/
def normalizeLeagues : List JVal → Option (List JVal × List String)
  | [] => some ([], [])
  | l :: ls =>
    match normalizeLeague l with
    | none => none
    | some (l', w) =>
      match normalizeLeagues ls with
      | none => none
      | some (ls', ws) => some (l' :: ls', w ++ ws)

/-- The whole timezone-conversion block applied to `data_to_store`.  Python
iterates whatever value `parsed_data["leagues"]` held: a list iterates its
elements; a string iterates its one-character substrings, none of which can
contain the five-character pattern `games`, so a string passes through
unchanged; a dict iterates its keys, so a key containing `games` as a
substring is then indexed with `['games']` and raises `TypeError`; any other
value raises `TypeError` at the `for` itself. -/
def normalizeData : JVal → Option (JVal × List String)
  | .arr ls =>
    match normalizeLeagues ls with
    | none => none
    | some (ls', ws) => some (.arr ls', ws)
  | .str s => some (.str s, [])
  | .obj fs =>
    if fs.any (fun p => hasSubList "games".data p.1.data) then none
    else some (.obj fs, [])
  | _ => none

/-- The schema step (`main.py` lines 56–58): evaluate `"leagues" not in
parsed_data`, raising `KeyError` if absent, then index.  Result: `none` models
a `TypeError` (the membership test or the indexing is undefined for the
value's type), `some none` models the explicit `KeyError`, and `some (some v)`
is `parsed_data["leagues"]`. -/
def getLeagues : JVal → Option (Option JVal)
  | .obj fs =>
    match lookupF fs "leagues" with
    | some v => some (some v)
    | none => some none
  | .str s => if hasSubList "leagues".data s.data then none else some none
  | .arr xs => if xs.any (strMember "leagues") then none else some none
  | _ => none

/-- The upserted record (`main.py` lines 99–103): the fixed key, the normalized
leagues value, and the current UTC time. -/
structure Payload where
  id : String
  data : JVal
  updated_at : String

/-- Behaviour of the source API on one GET: a status code, the raw body text,
and the result of decoding the body (`none` models `json.JSONDecodeError`). -/
structure FetchResp where
  status : Nat
  body : String
  decoded : Option JVal

/-- Behaviour of the external world during one cycle.  `fetch = none` models
`httpx.RequestError` during the GET; `store = none` models `httpx.RequestError`
during the POST, and `store = some n` a store response with status `n`. -/
structure Env where
  fetch : Option FetchResp
  store : Option Nat

/-- The error that the cycle's `except` clauses handled, one constructor per
distinguishable raise site: `requestErr` and `statusErr` are the two `httpx`
handlers, `emptyBody` is the `ValueError` raised at line 45 for a blank body
(caught by the final catch-all), `decodeErr` is the `json.JSONDecodeError`
handler, `missingKey` is the `KeyError` handler (the spec's SchemaError class),
and `unexpected` is any other error reaching the final `except Exception`. -/
inductive Raised where
  | requestErr
  | statusErr
  | emptyBody
  | decodeErr
  | missingKey
  | unexpected
deriving DecidableEq, Repr

/-- Observable outcome of one cycle: whether the store POST was issued, the
payload it carried, the error class the cycle's handlers reported (`none` on
full success), and the parse warnings printed by the normalizer. -/
structure CycleResult where
  storeCalled : Bool
  sent : Option Payload
  raised : Option Raised
  warnings : List String

/-- httpx `raise_for_status` raises unless the status is a 2xx success. -/
def statusOk (n : Nat) : Bool := 200 ≤ n && n < 300

/-- One execution of `perform_api_and_supabase_action`, as a function of the
environment's behaviour and of the value `datetime.now(timezone.utc).isoformat()`
returns at line 98.  The control flow mirrors the script: GET (network error /
`raise_for_status` / blank-body check / JSON decode), the `leagues` schema
check, the timezone-conversion loop, then the store POST and its
`raise_for_status`; every raise is caught by the function-level `except`
clauses, so a `CycleResult` is always returned. -/
def perform_api_and_supabase_action (env : Env) (now : String) : CycleResult :=
  match env.fetch with
  | none => ⟨false, none, some .requestErr, []⟩
  | some resp =>
    if !statusOk resp.status then ⟨false, none, some .statusErr, []⟩
    else if pyStrip resp.body = "" then ⟨false, none, some .emptyBody, []⟩
    else
      match resp.decoded with
      | none => ⟨false, none, some .decodeErr, []⟩
      | some parsed =>
        match getLeagues parsed with
        | none => ⟨false, none, some .unexpected, []⟩
        | some none => ⟨false, none, some .missingKey, []⟩
        | some (some dataToStore) =>
          match normalizeData dataToStore with
          | none => ⟨false, none, some .unexpected, []⟩
          | some (data', ws) =>
            match env.store with
            | none => ⟨true, some ⟨"test", data', now⟩, some .requestErr, ws⟩
            | some st =>
              if !statusOk st then ⟨true, some ⟨"test", data', now⟩, some .statusErr, ws⟩
              else ⟨true, some ⟨"test", data', now⟩, none, ws⟩

/-- The fixed inter-cycle delay of `asyncio.sleep(30)`. -/
def interCycleDelaySeconds : Nat := 30

/-- The `while True` driver `main_loop`, run over a finite list of per-cycle
environment behaviours (each paired with that cycle's clock reading): every
scheduled cycle executes, whatever the previous cycles did, because every
error is handled inside `perform_api_and_supabase_action`. -/
def main_loop : List (Env × String) → List CycleResult
  | [] => []
  | (e, t) :: rest => perform_api_and_supabase_action e t :: main_loop rest

/-- A Game the spec considers well-formed: a mapping. -/
def wfGame : JVal → Bool
  | .obj _ => true
  | _ => false

/-- A League the spec considers well-formed: a mapping whose `games` field, if
it is a list, contains well-formed Games. -/
def wfLeague : JVal → Bool
  | .obj fs =>
    match lookupF fs "games" with
    | some (.arr gs) => gs.all wfGame
    | _ => true
  | _ => false

/-- A well-formed `leagues` value: a list of well-formed Leagues. -/
def wfLeagues (ls : List JVal) : Bool := ls.all wfLeague

/-- Shape of a league: the number of games in its `games` list, when present. -/
def shape (l : JVal) : Option Nat :=
  match l with
  | .obj fs =>
    match lookupF fs "games" with
    | some (.arr gs) => some gs.length
    | _ => none
  | _ => none

/-- Extract `data[0].games[0]` from the payload a cycle sent. -/
def firstGame (r : CycleResult) : Option JVal :=
  match r.sent with
  | some p =>
    match p.data with
    | .arr (l :: _) =>
      match l with
      | .obj fs =>
        match lookupF fs "games" with
        | some (.arr (g :: _)) => some g
        | _ => none
      | _ => none
    | _ => none
  | none => none

/-- A field of `data[0].games[0]` of the payload a cycle sent. -/
def gameField (r : CycleResult) (k : String) : Option JVal :=
  match firstGame r with
  | some (.obj fs) => lookupF fs k
  | _ => none

/-- A field of the game a lone `normalizeGame` call produced. -/
def normGameField (g : JVal) (k : String) : Option JVal :=
  match normalizeGame g with
  | some (.obj fs, _) => lookupF fs k
  | _ => none

/-- The end-to-end scenario's game `G1`. -/
def gameG1 : JVal := .obj [("id", .str "G1"), ("start_time", .str "15-03-2024 20:00")]

/-- The end-to-end scenario's league `L1`. -/
def leagueL1 : JVal := .obj [("id", .str "L1"), ("games", .arr [gameG1])]

/-- The end-to-end scenario's decoded source response. -/
def respC1 : JVal := .obj [("leagues", .arr [leagueL1])]

/-- Environment for the end-to-end scenario: successful fetch decoding to
`respC1`, successful store. -/
def envC1 : Env :=
  ⟨some ⟨200, "x", some respC1⟩, some 201⟩

/-! Lemmas about the digit machinery. -/

/-- Digit characters are digits. -/
theorem isDig_digitChar : ∀ n, n < 10 → isDig (digitChar n) = true := by decide

/-- Digit characters decode to their value. -/
theorem digVal_digitChar : ∀ n, n < 10 → digVal (digitChar n) = n := by decide

/-- Whether a character list does not begin with a digit. -/
def noDigHead : List Char → Bool
  | [] => true
  | c :: _ => !isDig c

/-- Length of a two-digit rendering. -/
theorem pad2_length (n : Nat) : (pad2 n).length = 2 := rfl

/-- Length of a four-digit rendering. -/
theorem pad4_length (n : Nat) : (pad4 n).length = 4 := rfl

/-- The digit run at the front of a rendered two-digit field is exactly that
field when the remainder does not begin with a digit. -/
theorem takeDigits_pad2 (n : Nat) (hn : n ≤ 99) (r : List Char)
    (hr : noDigHead r = true) : takeDigits (pad2 n ++ r) = (pad2 n, r) := by
  have h1 : n / 10 < 10 := by omega
  have h2 : n % 10 < 10 := by omega
  cases r with
  | nil => simp [pad2, takeDigits, isDig_digitChar _ h1, isDig_digitChar _ h2]
  | cons c cs =>
    have hc : isDig c = false := by
      simpa [noDigHead] using hr
    simp [pad2, takeDigits, isDig_digitChar _ h1, isDig_digitChar _ h2, hc]

/-- The digit run at the front of a rendered four-digit field is exactly that
field when the remainder does not begin with a digit. -/
theorem takeDigits_pad4 (n : Nat) (hn : n ≤ 9999) (r : List Char)
    (hr : noDigHead r = true) : takeDigits (pad4 n ++ r) = (pad4 n, r) := by
  have h1 : n / 1000 < 10 := by omega
  have h2 : n / 100 % 10 < 10 := by omega
  have h3 : n / 10 % 10 < 10 := by omega
  have h4 : n % 10 < 10 := by omega
  cases r with
  | nil =>
    simp [pad4, takeDigits, isDig_digitChar _ h1, isDig_digitChar _ h2,
      isDig_digitChar _ h3, isDig_digitChar _ h4]
  | cons c cs =>
    have hc : isDig c = false := by
      simpa [noDigHead] using hr
    simp [pad4, takeDigits, isDig_digitChar _ h1, isDig_digitChar _ h2,
      isDig_digitChar _ h3, isDig_digitChar _ h4, hc]

/-- Decoding a two-digit rendering gives the value back. -/
theorem digitsVal_pad2 (n : Nat) (hn : n ≤ 99) : digitsVal (pad2 n) = n := by
  have h1 : n / 10 < 10 := by omega
  have h2 : n % 10 < 10 := by omega
  simp [digitsVal, pad2, List.foldl, digVal_digitChar _ h1, digVal_digitChar _ h2]
  omega

/-- Decoding a four-digit rendering gives the value back. -/
theorem digitsVal_pad4 (n : Nat) (hn : n ≤ 9999) : digitsVal (pad4 n) = n := by
  have h1 : n / 1000 < 10 := by omega
  have h2 : n / 100 % 10 < 10 := by omega
  have h3 : n / 10 % 10 < 10 := by omega
  have h4 : n % 10 < 10 := by omega
  simp [digitsVal, pad4, List.foldl, digVal_digitChar _ h1, digVal_digitChar _ h2,
    digVal_digitChar _ h3, digVal_digitChar _ h4]
  omega

/-- Consuming the expected separator succeeds. -/
theorem expectChar_cons_self (c : Char) (r : List Char) :
    expectChar c (c :: r) = some r := by simp [expectChar]

/-- Every month has at most 31 days. -/
theorem daysInMonth_le (y m : Nat) : daysInMonth y m ≤ 31 := by
  unfold daysInMonth
  split
  · split <;> omega
  · split <;> omega

/-- Field extraction succeeds on a rendered datetime string and returns the
rendered values. -/
theorem parseFieldsRaw_render (d mo y h mi : Nat) (hd : d ≤ 99) (hmo : mo ≤ 99)
    (hy : y ≤ 9999) (hh : h ≤ 99) (hmi : mi ≤ 99) :
    parseFieldsRaw (pad2 d ++ '-' :: (pad2 mo ++ '-' :: (pad4 y ++
      ' ' :: (pad2 h ++ ':' :: pad2 mi)))) = some (d, mo, y, h, mi) := by
  have e5 : takeDigits (pad2 mi) = (pad2 mi, []) := by
    have := takeDigits_pad2 mi hmi [] rfl
    simpa using this
  have e4 : takeDigits (pad2 h ++ ':' :: pad2 mi) = (pad2 h, ':' :: pad2 mi) :=
    takeDigits_pad2 h hh _ (by simp [noDigHead]; decide)
  have e3 : takeDigits (pad4 y ++ ' ' :: (pad2 h ++ ':' :: pad2 mi))
      = (pad4 y, ' ' :: (pad2 h ++ ':' :: pad2 mi)) :=
    takeDigits_pad4 y hy _ (by simp [noDigHead]; decide)
  have e2 : takeDigits (pad2 mo ++ '-' :: (pad4 y ++ ' ' :: (pad2 h ++ ':' :: pad2 mi)))
      = (pad2 mo, '-' :: (pad4 y ++ ' ' :: (pad2 h ++ ':' :: pad2 mi))) :=
    takeDigits_pad2 mo hmo _ (by simp [noDigHead]; decide)
  have e1 : takeDigits (pad2 d ++ '-' :: (pad2 mo ++ '-' :: (pad4 y ++
      ' ' :: (pad2 h ++ ':' :: pad2 mi))))
      = (pad2 d, '-' :: (pad2 mo ++ '-' :: (pad4 y ++ ' ' :: (pad2 h ++ ':' :: pad2 mi)))) :=
    takeDigits_pad2 d hd _ (by simp [noDigHead]; decide)
  simp only [parseFieldsRaw, e1, e2, e3, e4, e5, expectChar_cons_self,
    pad2_length, pad4_length, digitsVal_pad2 d hd, digitsVal_pad2 mo hmo,
    digitsVal_pad4 y hy, digitsVal_pad2 h hh, digitsVal_pad2 mi hmi]
  norm_num

/-- Round trip: a rendered valid datetime parses back to itself. -/
theorem parseDT_render (dt : DT) (hv : validDT dt) : parseDT (renderDT dt) = some dt := by
  obtain ⟨y, mo, d, h, mi⟩ := dt
  unfold validDT at hv
  dsimp only at hv
  obtain ⟨hd1, hmo1, hmo2, hd2, hh, hmi, hy1, hy2⟩ := hv
  have hdm : daysInMonth y mo ≤ 31 := daysInMonth_le y mo
  show parseDTList (renderDTList ⟨y, mo, d, h, mi⟩) = some ⟨y, mo, d, h, mi⟩
  unfold renderDTList parseDTList
  dsimp only
  rw [parseFieldsRaw_render d mo y h mi (by omega) (by omega) (by omega)
    (by omega) (by omega)]
  dsimp only
  rw [if_pos ⟨hd1, hmo1, hmo2, hd2, hh, hmi, hy1, hy2⟩]

/-- A successful parse yields a valid datetime. -/
theorem parseDT_valid {s : String} {dt : DT} (hp : parseDT s = some dt) : validDT dt := by
  unfold parseDT parseDTList at hp
  rcases hf : parseFieldsRaw s.data with _ | ⟨d, mo, y, h, mi⟩ <;> rw [hf] at hp <;>
    dsimp only at hp
  · exact absurd hp (by simp)
  · split at hp
    · rename_i hcond
      injection hp with hp'
      subst hp'
      exact hcond
    · exact absurd hp (by simp)

/-! Lemmas about the timezone shift. -/

/-- Shifting a date by zero days is the identity. -/
theorem addDays_zero (d : Date) : addDays d 0 = d := rfl

/-- Shifting a datetime by zero minutes is the identity. -/
theorem addMin_zero (dt : DT) (hh : dt.hour ≤ 23) (hm : dt.minute ≤ 59) :
    addMin dt 0 = dt := by
  obtain ⟨y, mo, d, h, mi⟩ := dt
  dsimp only at hh hm
  simp only [addMin]
  have hq : (((h * 60 + mi : Nat) : Int) + 0) / 1440 = 0 := by omega
  have hr : ((((h * 60 + mi : Nat) : Int) + 0) % 1440).toNat = h * 60 + mi := by omega
  rw [hq, hr, addDays_zero]
  have e1 : (h * 60 + mi) / 60 = h := by omega
  have e2 : (h * 60 + mi) % 60 = mi := by omega
  rw [e1, e2]

/-- Because the source zone and the target zone share the fixed offset
UTC-03:00, the conversion the script performs is the identity on the wall
clock. -/
theorem convertDT_id (dt : DT) (hh : dt.hour ≤ 23) (hm : dt.minute ≤ 59) :
    convertDT dt = dt := by
  unfold convertDT target_timezone_offset_min promiedos_timezone_offset_min
  rw [show ((-180 : Int) - (-180 : Int)) = 0 by norm_num]
  exact addMin_zero dt hh hm

/-! Lemmas about object update. -/

/-- Looking up the key just written returns the written value. -/
theorem lookupF_setKey_self (fs : List (String × JVal)) (k : String) (v : JVal) :
    lookupF (setKey fs k v) k = some v := by
  induction fs with
  | nil => simp [setKey, lookupF]
  | cons p rest ih =>
    obtain ⟨k', v'⟩ := p
    by_cases hk : k' = k
    · simp [setKey, hk, lookupF]
    · simp [setKey, hk, lookupF, ih]

/-- Writing one key leaves lookups of other keys unchanged. -/
theorem lookupF_setKey_ne (fs : List (String × JVal)) (k : String) (v : JVal)
    (k' : String) (h : k' ≠ k) : lookupF (setKey fs k v) k' = lookupF fs k' := by
  have hne : ¬(k = k') := fun hkk => h hkk.symm
  induction fs with
  | nil => simp [setKey, lookupF, hne]
  | cons p rest ih =>
    obtain ⟨k'', v''⟩ := p
    by_cases hk : k'' = k
    · subst hk
      simp [setKey, lookupF, hne]
    · simp [setKey, hk, lookupF, ih]

/-! Lemmas about the normalizer. -/

/-- On a mapping Game whose `start_time` parses, the conversion branch runs and
rewrites the three fields. -/
theorem normalizeGame_success (fs : List (String × JVal)) (s : String) (dtv : DT)
    (hl : lookupF fs "start_time" = some (.str s)) (hp : parseDT s = some dtv) :
    normalizeGame (.obj fs) = some (.obj (setKey (setKey (setKey fs
      "start_time_original" (.str s))
      "start_time" (.str (renderDT (convertDT dtv))))
      "start_time_iso_target_tz"
        (.str (isoRender (convertDT dtv) target_timezone_offset_min))), []) := by
  simp [normalizeGame, hl, hp]

/-- On a mapping Game whose `start_time` fails to parse, the Game is returned
untouched together with a warning naming the offending string. -/
theorem normalizeGame_fail (fs : List (String × JVal)) (s : String)
    (hl : lookupF fs "start_time" = some (.str s)) (hp : parseDT s = none) :
    normalizeGame (.obj fs) = some (.obj fs, [s]) := by
  simp [normalizeGame, hl, hp]

/-- A mapping Game never raises: the per-game branch always returns. -/
theorem normalizeGame_obj (fs : List (String × JVal)) :
    ∃ g' w, normalizeGame (.obj fs) = some (g', w) := by
  simp only [normalizeGame]
  rcases h : lookupF fs "start_time" with _ | v
  · exact ⟨_, _, rfl⟩
  · cases v with
    | str s =>
      dsimp only
      cases hp : parseDT s with
      | none => exact ⟨_, _, rfl⟩
      | some dtv => exact ⟨_, _, rfl⟩
    | null => exact ⟨_, _, rfl⟩
    | bool b => exact ⟨_, _, rfl⟩
    | num n => exact ⟨_, _, rfl⟩
    | arr xs => exact ⟨_, _, rfl⟩
    | obj gs => exact ⟨_, _, rfl⟩

/-- The inner game loop succeeds on well-formed games and preserves the number
of games. -/
theorem normalizeGames_wf (gs : List JVal) (h : gs.all wfGame = true) :
    ∃ gs' ws, normalizeGames gs = some (gs', ws) ∧ gs'.length = gs.length := by
  induction gs with
  | nil => exact ⟨[], [], rfl, rfl⟩
  | cons g rest ih =>
    rw [List.all_cons, Bool.and_eq_true] at h
    obtain ⟨gs', ws, hrest, hlen⟩ := ih h.2
    have hobj : ∃ fs, g = .obj fs := by
      cases g <;> simp [wfGame] at h ⊢
    obtain ⟨fs, rfl⟩ := hobj
    obtain ⟨g', w, hg⟩ := normalizeGame_obj fs
    exact ⟨g' :: gs', w ++ ws, by simp [normalizeGames, hg, hrest], by simp [hlen]⟩

/-- One league step succeeds on a well-formed league and preserves its shape. -/
theorem normalizeLeague_wf (l : JVal) (h : wfLeague l = true) :
    ∃ l' w, normalizeLeague l = some (l', w) ∧ shape l' = shape l := by
  cases l with
  | obj fs =>
    rcases hg : lookupF fs "games" with _ | v
    · exact ⟨.obj fs, [], by simp [normalizeLeague, hg], rfl⟩
    · cases v with
      | arr gs =>
        have hwf : gs.all wfGame = true := by
          simpa [wfLeague, hg] using h
        obtain ⟨gs', ws, hn, hlen⟩ := normalizeGames_wf gs hwf
        refine ⟨.obj (setKey fs "games" (.arr gs')), ws,
          by simp [normalizeLeague, hg, hn], ?_⟩
        simp [shape, hg, lookupF_setKey_self, hlen]
      | str s => exact ⟨.obj fs, [], by simp [normalizeLeague, hg], rfl⟩
      | null => exact ⟨.obj fs, [], by simp [normalizeLeague, hg], rfl⟩
      | bool b => exact ⟨.obj fs, [], by simp [normalizeLeague, hg], rfl⟩
      | num n => exact ⟨.obj fs, [], by simp [normalizeLeague, hg], rfl⟩
      | obj gs => exact ⟨.obj fs, [], by simp [normalizeLeague, hg], rfl⟩
  | str s => simp [wfLeague] at h
  | null => simp [wfLeague] at h
  | bool b => simp [wfLeague] at h
  | num n => simp [wfLeague] at h
  | arr xs => simp [wfLeague] at h

/-- The outer league loop succeeds on well-formed leagues, preserving count
and per-league shape. -/
theorem normalizeLeagues_wf (ls : List JVal) (h : wfLeagues ls = true) :
    ∃ ls' ws, normalizeLeagues ls = some (ls', ws) ∧ ls'.length = ls.length
      ∧ List.Forall₂ (fun a b => shape b = shape a) ls ls' := by
  induction ls with
  | nil => exact ⟨[], [], rfl, rfl, List.Forall₂.nil⟩
  | cons l rest ih =>
    rw [wfLeagues, List.all_cons, Bool.and_eq_true] at h
    obtain ⟨ls', ws, hrest, hlen, hsh⟩ := ih h.2
    obtain ⟨l', w, hl, hshape⟩ := normalizeLeague_wf l h.1
    exact ⟨l' :: ls', w ++ ws, by simp [normalizeLeagues, hl, hrest],
      by simp [hlen], List.Forall₂.cons hshape hsh⟩

/-- Every scheduled cycle produces exactly one result. -/
theorem main_loop_length (steps : List (Env × String)) :
    (main_loop steps).length = steps.length := by
  induction steps with
  | nil => rfl
  | cons p rest ih =>
    obtain ⟨e, t⟩ := p
    simp [main_loop, ih]

/-- On a parse success, the three written fields read back as written: the
original string, the re-rendered converted time, and the ISO form. -/
theorem normalizeGame_lookups (fs : List (String × JVal)) (s : String) (dtv : DT)
    (hl : lookupF fs "start_time" = some (.str s)) (hp : parseDT s = some dtv) :
    ∃ fs', normalizeGame (.obj fs) = some (.obj fs', [])
      ∧ lookupF fs' "start_time_original" = some (.str s)
      ∧ lookupF fs' "start_time" = some (.str (renderDT (convertDT dtv)))
      ∧ lookupF fs' "start_time_iso_target_tz"
        = some (.str (isoRender (convertDT dtv) target_timezone_offset_min)) := by
  refine ⟨_, normalizeGame_success fs s dtv hl hp, ?_, ?_, ?_⟩
  · rw [lookupF_setKey_ne _ _ _ _ (by decide), lookupF_setKey_ne _ _ _ _ (by decide),
      lookupF_setKey_self]
  · rw [lookupF_setKey_ne _ _ _ _ (by decide), lookupF_setKey_self]
  · rw [lookupF_setKey_self]

/-- The offset difference the conversion applies is zero, so un-shifting by it
is the identity on any datetime a parse produced. -/
theorem addMin_offset_diff (dtv : DT) (hv : validDT dtv) :
    addMin dtv (promiedos_timezone_offset_min - target_timezone_offset_min) = dtv := by
  unfold promiedos_timezone_offset_min target_timezone_offset_min
  rw [show ((-180 : Int) - (-180 : Int)) = 0 by norm_num]
  exact addMin_zero dtv hv.2.2.2.2.1 hv.2.2.2.2.2.1

/-- C1 (counterexample): in the end-to-end scenario the claim expects target
UTC (`start_time = "15-03-2024 23:00"`, ISO suffix `+00:00`), but the code
converts to Cordoba, which shares UTC-03:00 with the source zone: the stored
game keeps `start_time = "15-03-2024 20:00"`, and there is no field named
`start_time_iso` — the ISO field is `start_time_iso_target_tz`, ending in
`-03:00`. -/
theorem payload_target_not_utc_cx :
    gameField (perform_api_and_supabase_action envC1 "T") "start_time"
      = some (.str "15-03-2024 20:00")
    ∧ ¬ gameField (perform_api_and_supabase_action envC1 "T") "start_time"
      = some (.str "15-03-2024 23:00")
    ∧ gameField (perform_api_and_supabase_action envC1 "T") "start_time_iso" = none
    ∧ gameField (perform_api_and_supabase_action envC1 "T") "start_time_iso_target_tz"
      = some (.str "2024-03-15T20:00:00-03:00") := by
  refine ⟨rfl, ?_, rfl, rfl⟩
  have h : gameField (perform_api_and_supabase_action envC1 "T") "start_time"
      = some (.str "15-03-2024 20:00") := rfl
  rw [h]
  intro hc
  injection hc with hc1
  injection hc1 with hc2
  exact absurd hc2 (by decide)

/-- C1 (amended): for the end-to-end scenario under the configuration the code
actually has (source Buenos Aires, target Cordoba, both fixed at UTC-03:00),
the store payload has id `"test"`, `updated_at` equal to the cycle's current
UTC clock reading, and `data[0].games[0]` carrying
`start_time_original = start_time = "15-03-2024 20:00"` and
`start_time_iso_target_tz = "2024-03-15T20:00:00-03:00"` (suffix `-03:00`). -/
theorem payload_end_to_end_amended (now : String) :
    (perform_api_and_supabase_action envC1 now).storeCalled = true
    ∧ (perform_api_and_supabase_action envC1 now).raised = none
    ∧ ((perform_api_and_supabase_action envC1 now).sent).map Payload.id = some "test"
    ∧ ((perform_api_and_supabase_action envC1 now).sent).map Payload.updated_at = some now
    ∧ gameField (perform_api_and_supabase_action envC1 now) "start_time_original"
      = some (.str "15-03-2024 20:00")
    ∧ gameField (perform_api_and_supabase_action envC1 now) "start_time"
      = some (.str "15-03-2024 20:00")
    ∧ gameField (perform_api_and_supabase_action envC1 now) "start_time_iso_target_tz"
      = some (.str "2024-03-15T20:00:00-03:00") :=
  ⟨rfl, rfl, rfl, rfl, rfl, rfl, rfl⟩

/-- C2: for any Game whose `start_time` parses, the normalizer's output
`start_time` re-parses, and shifting the result back by the configured offset
difference recovers the original wall-clock value. -/
theorem start_time_round_trip (fs : List (String × JVal)) (s : String) (dtv : DT)
    (hl : lookupF fs "start_time" = some (.str s)) (hp : parseDT s = some dtv) :
    ∃ fs', normalizeGame (.obj fs) = some (.obj fs', [])
      ∧ ∃ out, lookupF fs' "start_time" = some (.str out)
        ∧ ∃ odt, parseDT out = some odt
          ∧ addMin odt (promiedos_timezone_offset_min - target_timezone_offset_min) = dtv := by
  have hv := parseDT_valid hp
  have hid : convertDT dtv = dtv := convertDT_id dtv hv.2.2.2.2.1 hv.2.2.2.2.2.1
  obtain ⟨fs', hn, _, hst, _⟩ := normalizeGame_lookups fs s dtv hl hp
  refine ⟨fs', hn, renderDT (convertDT dtv), hst, dtv, ?_, addMin_offset_diff dtv hv⟩
  rw [hid]
  exact parseDT_render dtv hv

/-- Witness for C2 at the concrete game of the end-to-end scenario. -/
theorem start_time_round_trip_witness :
    lookupF [("start_time", JVal.str "15-03-2024 20:00")] "start_time"
      = some (JVal.str "15-03-2024 20:00")
    ∧ parseDT "15-03-2024 20:00" = some ⟨2024, 3, 15, 20, 0⟩
    ∧ (∃ fs', normalizeGame (.obj [("start_time", JVal.str "15-03-2024 20:00")])
        = some (.obj fs', [])
      ∧ ∃ out, lookupF fs' "start_time" = some (.str out)
        ∧ ∃ odt, parseDT out = some odt
          ∧ addMin odt (promiedos_timezone_offset_min - target_timezone_offset_min)
            = ⟨2024, 3, 15, 20, 0⟩) :=
  ⟨rfl, by decide, start_time_round_trip _ _ _ rfl (by decide)⟩

/-- C3: on a well-formed `leagues` array the normalizer succeeds, keeps the
number of leagues, and keeps every league's game count (it never adds or
removes leagues or games). -/
theorem normalize_preserves_shape (ls : List JVal) (h : wfLeagues ls = true) :
    ∃ out ws, normalizeData (.arr ls) = some (.arr out, ws)
      ∧ out.length = ls.length
      ∧ List.Forall₂ (fun a b => shape b = shape a) ls out := by
  obtain ⟨ls', ws, hn, hlen, hsh⟩ := normalizeLeagues_wf ls h
  exact ⟨ls', ws, by simp [normalizeData, hn], hlen, hsh⟩

/-- Witness for C3 at the end-to-end scenario's league list. -/
theorem normalize_preserves_shape_witness :
    wfLeagues [leagueL1] = true
    ∧ ∃ out ws, normalizeData (.arr [leagueL1]) = some (.arr out, ws)
      ∧ out.length = [leagueL1].length
      ∧ List.Forall₂ (fun a b => shape b = shape a) [leagueL1] out :=
  ⟨by decide, normalize_preserves_shape [leagueL1] (by decide)⟩

/-- C4: a Game whose `start_time` fails to parse is returned exactly
unchanged, with a warning naming the offending string, and a cycle containing
such a Game still completes and still issues the store upsert. -/
theorem malformed_start_time_left_unchanged (fs : List (String × JVal)) (s : String)
    (hl : lookupF fs "start_time" = some (.str s)) (hbad : parseDT s = none) :
    normalizeGame (.obj fs) = some (.obj fs, [s])
    ∧ (perform_api_and_supabase_action
        ⟨some ⟨200, "x", some (.obj [("leagues", .arr [.obj [("games", .arr [.obj fs])]])])⟩,
          some 201⟩ "T").storeCalled = true
    ∧ (perform_api_and_supabase_action
        ⟨some ⟨200, "x", some (.obj [("leagues", .arr [.obj [("games", .arr [.obj fs])]])])⟩,
          some 201⟩ "T").raised = none
    ∧ (perform_api_and_supabase_action
        ⟨some ⟨200, "x", some (.obj [("leagues", .arr [.obj [("games", .arr [.obj fs])]])])⟩,
          some 201⟩ "T").warnings = [s] := by
  have h1 := normalizeGame_fail fs s hl hbad
  refine ⟨h1, ?_, ?_, ?_⟩ <;>
    simp [perform_api_and_supabase_action, getLeagues, lookupF, normalizeData,
      normalizeLeagues, normalizeLeague, normalizeGames, h1, setKey, statusOk, pyStrip,
      pySpace]

/-- Witness for C4 at the malformed string of the spec's own example. -/
theorem malformed_start_time_left_unchanged_witness :
    lookupF [("start_time", JVal.str "not-a-date")] "start_time"
      = some (JVal.str "not-a-date")
    ∧ parseDT "not-a-date" = none
    ∧ (normalizeGame (.obj [("start_time", JVal.str "not-a-date")])
        = some (.obj [("start_time", JVal.str "not-a-date")], ["not-a-date"])
      ∧ (perform_api_and_supabase_action
          ⟨some ⟨200, "x", some (.obj [("leagues",
            .arr [.obj [("games", .arr [.obj [("start_time", JVal.str "not-a-date")]])]])])⟩,
            some 201⟩ "T").storeCalled = true
      ∧ (perform_api_and_supabase_action
          ⟨some ⟨200, "x", some (.obj [("leagues",
            .arr [.obj [("games", .arr [.obj [("start_time", JVal.str "not-a-date")]])]])])⟩,
            some 201⟩ "T").raised = none
      ∧ (perform_api_and_supabase_action
          ⟨some ⟨200, "x", some (.obj [("leagues",
            .arr [.obj [("games", .arr [.obj [("start_time", JVal.str "not-a-date")]])]])])⟩,
            some 201⟩ "T").warnings = ["not-a-date"]) :=
  ⟨rfl, by decide, malformed_start_time_left_unchanged _ _ rfl (by decide)⟩

/-- C5 (counterexample): a decoded body that is the JSON number `5` lacks the
`leagues` key, yet the abort is handled by the catch-all `except Exception`
(the membership test raises `TypeError`), not by the `KeyError` handler the
spec's SchemaError class names; the store is still never invoked. -/
theorem missing_leagues_nondict_cx :
    (perform_api_and_supabase_action ⟨some ⟨200, "5", some (.num 5)⟩, some 201⟩ "T").raised
      = some .unexpected
    ∧ ¬ (perform_api_and_supabase_action ⟨some ⟨200, "5", some (.num 5)⟩, some 201⟩ "T").raised
      = some .missingKey
    ∧ (perform_api_and_supabase_action ⟨some ⟨200, "5", some (.num 5)⟩, some 201⟩ "T").storeCalled
      = false := by
  refine ⟨rfl, ?_, rfl⟩
  have h : (perform_api_and_supabase_action
      ⟨some ⟨200, "5", some (.num 5)⟩, some 201⟩ "T").raised = some .unexpected := rfl
  rw [h]
  decide

/-- C5 (amended): when the decoded body supports the membership test — an
object without the key, an array without a `"leagues"` string element, or a
string without a `leagues` substring — the cycle aborts under the `KeyError`
(SchemaError-class) handler and the store is never invoked; a decoded body
that does not support it (number, boolean, null, or a container whose
membership test succeeds but whose indexing then fails) still aborts before
any store call, but under the catch-all handler. -/
theorem missing_leagues_schema_error_amended (resp : FetchResp) (st : Option Nat)
    (now : String) (v : JVal) (hok : statusOk resp.status = true)
    (hbody : ¬ pyStrip resp.body = "") (hdec : resp.decoded = some v) :
    (getLeagues v = some none →
      (perform_api_and_supabase_action ⟨some resp, st⟩ now).raised = some .missingKey
      ∧ (perform_api_and_supabase_action ⟨some resp, st⟩ now).storeCalled = false)
    ∧ (getLeagues v = none →
      (perform_api_and_supabase_action ⟨some resp, st⟩ now).raised = some .unexpected
      ∧ (perform_api_and_supabase_action ⟨some resp, st⟩ now).storeCalled = false) := by
  constructor <;> intro hg <;>
    simp [perform_api_and_supabase_action, hok, hbody, hdec, hg]

/-- Witness for C5 (amended) at a body decoding to an object without the key. -/
theorem missing_leagues_schema_error_amended_witness :
    statusOk 200 = true ∧ ¬ pyStrip "0" = ""
    ∧ (FetchResp.mk 200 "0" (some (.obj [("a", JVal.null)]))).decoded
      = some (.obj [("a", JVal.null)])
    ∧ ((getLeagues (.obj [("a", JVal.null)]) = some none →
        (perform_api_and_supabase_action
          ⟨some ⟨200, "0", some (.obj [("a", JVal.null)])⟩, some 201⟩ "T").raised
          = some .missingKey
        ∧ (perform_api_and_supabase_action
          ⟨some ⟨200, "0", some (.obj [("a", JVal.null)])⟩, some 201⟩ "T").storeCalled = false)
      ∧ (getLeagues (.obj [("a", JVal.null)]) = none →
        (perform_api_and_supabase_action
          ⟨some ⟨200, "0", some (.obj [("a", JVal.null)])⟩, some 201⟩ "T").raised
          = some .unexpected
        ∧ (perform_api_and_supabase_action
          ⟨some ⟨200, "0", some (.obj [("a", JVal.null)])⟩, some 201⟩ "T").storeCalled
          = false)) :=
  ⟨rfl, by decide, rfl,
    missing_leagues_schema_error_amended _ (some 201) "T" _ rfl (by decide) rfl⟩

/-- C6: a successful HTTP status with an empty or whitespace-only body makes
the cycle abort with the distinguished empty-body `ValueError` (the spec's
EmptyResponseError class) and the store is never invoked. -/
theorem empty_body_aborts_before_store (resp : FetchResp) (st : Option Nat) (now : String)
    (hok : statusOk resp.status = true) (hblank : pyStrip resp.body = "") :
    (perform_api_and_supabase_action ⟨some resp, st⟩ now).raised = some .emptyBody
    ∧ (perform_api_and_supabase_action ⟨some resp, st⟩ now).storeCalled = false := by
  simp [perform_api_and_supabase_action, hok, hblank]

/-- Witness for C6 at a whitespace-only body after a 200. -/
theorem empty_body_aborts_before_store_witness :
    statusOk 200 = true ∧ pyStrip "  \n\t " = ""
    ∧ ((perform_api_and_supabase_action
        ⟨some ⟨200, "  \n\t ", some (.obj [])⟩, some 201⟩ "T").raised = some .emptyBody
      ∧ (perform_api_and_supabase_action
        ⟨some ⟨200, "  \n\t ", some (.obj [])⟩, some 201⟩ "T").storeCalled = false) :=
  ⟨rfl, by decide, empty_body_aborts_before_store _ (some 201) "T" rfl (by decide)⟩

/-- C7 (counterexample): the normalizer writes no field named
`start_time_iso`; the ISO-8601 field it adds is named
`start_time_iso_target_tz`. -/
theorem iso_field_name_cx :
    normGameField (.obj [("start_time", .str "15-03-2024 20:00")]) "start_time_iso" = none
    ∧ normGameField (.obj [("start_time", .str "15-03-2024 20:00")]) "start_time_iso_target_tz"
      = some (.str "2024-03-15T20:00:00-03:00") :=
  ⟨rfl, rfl⟩

/-- C7 (amended): for every Game whose `start_time` parses, the normalizer
writes `start_time_original` holding the untouched source string, overwrites
`start_time` with the converted value re-rendered in `DD-MM-YYYY HH:MM`
format, and adds a field named `start_time_iso_target_tz` holding an ISO-8601
timestamp with the target zone's explicit offset. -/
theorem normalized_game_fields_amended (fs : List (String × JVal)) (s : String) (dtv : DT)
    (hl : lookupF fs "start_time" = some (.str s)) (hp : parseDT s = some dtv) :
    ∃ fs', normalizeGame (.obj fs) = some (.obj fs', [])
      ∧ lookupF fs' "start_time_original" = some (.str s)
      ∧ lookupF fs' "start_time" = some (.str (renderDT (convertDT dtv)))
      ∧ lookupF fs' "start_time_iso_target_tz"
        = some (.str (isoRender (convertDT dtv) target_timezone_offset_min)) :=
  normalizeGame_lookups fs s dtv hl hp

/-- Witness for C7 (amended) at the end-to-end scenario's game. -/
theorem normalized_game_fields_amended_witness :
    lookupF [("start_time", JVal.str "15-03-2024 20:00")] "start_time"
      = some (JVal.str "15-03-2024 20:00")
    ∧ parseDT "15-03-2024 20:00" = some ⟨2024, 3, 15, 20, 0⟩
    ∧ (∃ fs', normalizeGame (.obj [("start_time", JVal.str "15-03-2024 20:00")])
        = some (.obj fs', [])
      ∧ lookupF fs' "start_time_original" = some (.str "15-03-2024 20:00")
      ∧ lookupF fs' "start_time"
        = some (.str (renderDT (convertDT ⟨2024, 3, 15, 20, 0⟩)))
      ∧ lookupF fs' "start_time_iso_target_tz"
        = some (.str (isoRender (convertDT ⟨2024, 3, 15, 20, 0⟩)
            target_timezone_offset_min))) :=
  ⟨rfl, by decide, normalized_game_fields_amended _ _ _ rfl (by decide)⟩

/-- C8: no error inside a cycle can terminate the loop: the driver runs every
scheduled cycle, one result per tick, and in particular after a cycle whose
fetch succeeded but whose store POST answered HTTP 500 (handled by the
`HTTPStatusError` clause, with the store having been invoked), the next cycle
still runs after the fixed 30-second delay. -/
theorem cycle_errors_never_terminate_loop (e : Env) (t : String)
    (rest : List (Env × String)) :
    main_loop ((e, t) :: rest) = perform_api_and_supabase_action e t :: main_loop rest
    ∧ (main_loop ((e, t) :: rest)).length = rest.length + 1
    ∧ (perform_api_and_supabase_action
        ⟨some ⟨200, "x", some (.obj [("leagues", .arr [])])⟩, some 500⟩ t).storeCalled = true
    ∧ (perform_api_and_supabase_action
        ⟨some ⟨200, "x", some (.obj [("leagues", .arr [])])⟩, some 500⟩ t).raised
      = some .statusErr
    ∧ interCycleDelaySeconds = 30 := by
  refine ⟨rfl, ?_, rfl, rfl, rfl⟩
  simp [main_loop, main_loop_length]

/-- C9 (counterexample): `strptime` also accepts non-zero-padded fields, and
the rewrite then changes the string: `"5-03-2024 08:00"` parses, but the
normalizer outputs the re-rendered `"05-03-2024 08:00"`, which differs from
the input (kept in `start_time_original`). -/
theorem wall_clock_identity_cx :
    normGameField (.obj [("start_time", .str "5-03-2024 08:00")]) "start_time"
      = some (.str "05-03-2024 08:00")
    ∧ ¬ normGameField (.obj [("start_time", .str "5-03-2024 08:00")]) "start_time"
      = some (.str "5-03-2024 08:00")
    ∧ normGameField (.obj [("start_time", .str "5-03-2024 08:00")]) "start_time_original"
      = some (.str "5-03-2024 08:00") := by
  refine ⟨rfl, ?_, rfl⟩
  have h : normGameField (.obj [("start_time", .str "5-03-2024 08:00")]) "start_time"
      = some (.str "05-03-2024 08:00") := rfl
  rw [h]
  intro hc
  injection hc with hc1
  injection hc1 with hc2
  exact absurd hc2 (by decide)

/-- C9 (amended): because both configured zones share the offset UTC-03:00,
the conversion is a wall-clock identity, so for every Game whose `start_time`
parses and is already in canonical zero-padded form the output `start_time`
equals the input string and equals `start_time_original`. -/
theorem wall_clock_identity_amended (fs : List (String × JVal)) (s : String) (dtv : DT)
    (hl : lookupF fs "start_time" = some (.str s)) (hp : parseDT s = some dtv)
    (hcanon : renderDT dtv = s) :
    ∃ fs', normalizeGame (.obj fs) = some (.obj fs', [])
      ∧ lookupF fs' "start_time" = some (.str s)
      ∧ lookupF fs' "start_time_original" = some (.str s) := by
  have hv := parseDT_valid hp
  have hid : convertDT dtv = dtv := convertDT_id dtv hv.2.2.2.2.1 hv.2.2.2.2.2.1
  obtain ⟨fs', hn, horig, hst, _⟩ := normalizeGame_lookups fs s dtv hl hp
  rw [hid, hcanon] at hst
  exact ⟨fs', hn, hst, horig⟩

/-- Witness for C9 (amended) at the end-to-end scenario's game. -/
theorem wall_clock_identity_amended_witness :
    lookupF [("start_time", JVal.str "15-03-2024 20:00")] "start_time"
      = some (JVal.str "15-03-2024 20:00")
    ∧ parseDT "15-03-2024 20:00" = some ⟨2024, 3, 15, 20, 0⟩
    ∧ renderDT ⟨2024, 3, 15, 20, 0⟩ = "15-03-2024 20:00"
    ∧ (∃ fs', normalizeGame (.obj [("start_time", JVal.str "15-03-2024 20:00")])
        = some (.obj fs', [])
      ∧ lookupF fs' "start_time" = some (.str "15-03-2024 20:00")
      ∧ lookupF fs' "start_time_original" = some (.str "15-03-2024 20:00")) :=
  ⟨rfl, by decide, by decide,
    wall_clock_identity_amended [("start_time", JVal.str "15-03-2024 20:00")]
      "15-03-2024 20:00" ⟨2024, 3, 15, 20, 0⟩ rfl (by decide) (by decide)⟩

/-- C10: the schema check only tests for presence of the `leagues` key, not
that it is a list: a body whose `leagues` value is the string `"hello"` is not
rejected (no KeyError-class abort), the normalizer leaves the string
untouched, and the upsert is attempted with that string as the payload's
`data` field. -/
theorem leagues_non_list_reaches_upsert :
    ¬ (perform_api_and_supabase_action
        ⟨some ⟨200, "x", some (.obj [("leagues", .str "hello")])⟩, some 201⟩ "T").raised
      = some .missingKey
    ∧ (perform_api_and_supabase_action
        ⟨some ⟨200, "x", some (.obj [("leagues", .str "hello")])⟩, some 201⟩ "T").raised
      = none
    ∧ (perform_api_and_supabase_action
        ⟨some ⟨200, "x", some (.obj [("leagues", .str "hello")])⟩, some 201⟩ "T").storeCalled
      = true
    ∧ (perform_api_and_supabase_action
        ⟨some ⟨200, "x", some (.obj [("leagues", .str "hello")])⟩, some 201⟩ "T").sent
      = some ⟨"test", .str "hello", "T"⟩ := by
  refine ⟨?_, rfl, rfl, rfl⟩
  have h : (perform_api_and_supabase_action
      ⟨some ⟨200, "x", some (.obj [("leagues", .str "hello")])⟩, some 201⟩ "T").raised
      = none := rfl
  rw [h]
  decide
